import Mathlib

/-!
Verification of the article-compilation script (src/script.py).

Shallow embedding conventions:
* Python strings are sequences of Unicode code points; they are modelled as
  Lean `String` / `List Char` (also code-point sequences).  String-shaped
  primitives of Python (`strip`, slicing, `split`, `startswith`, `title`,
  lexicographic comparison) are re-implemented on `List Char`, restricted to
  the ASCII fragment where Python's definitions involve Unicode tables
  (whitespace, digits, letter case).
* Python `datetime` values produced by the script always have a zero time
  component, so they are modelled as `(year, month, day)` records together
  with the validity predicate enforced by the `datetime` constructor.
* HTML parsing (BeautifulSoup) and URL parsing (`urllib.parse`) are external
  collaborators: a parsed document is modelled as a record holding exactly
  the query results the script asks the parser for (first matching element
  text / attribute, or absence).
-/

namespace Script

/-! ### Python string primitives (ASCII fragment) -/

/-- Whitespace characters recognised by Python `str.strip()` (no argument)
and by the regex class backslash-s, ASCII fragment. -/
def isPySpace (c : Char) : Bool :=
  c = ' ' || c = '\t' || c = '\n' || c = '\r' || c = '\x0b' || c = '\x0c'

/-- Remove the trailing characters satisfying `p` (the right half of Python
`str.strip` / `str.rstrip`). -/
def dropRightWhile (p : Char → Bool) (l : List Char) : List Char :=
  (l.reverse.dropWhile p).reverse

/-- Python `s.strip(chars)`: remove characters satisfying `p` from both ends
of the string. -/
def pyStripP (p : Char → Bool) (l : List Char) : List Char :=
  dropRightWhile p (l.dropWhile p)

/-- Python `s.strip()` with no argument: strip whitespace from both ends. -/
def pyStripWs (s : String) : String :=
  ⟨pyStripP isPySpace s.data⟩

/-- Replace one character by another everywhere (Python `s.replace(old, new)`
for single-character arguments). -/
def pyReplaceChar (old new : Char) (l : List Char) : List Char :=
  l.map fun c => if c = old then new else c

/-- Python list-of-code-points lexicographic strict comparison: the semantics
of `s1 < s2` on Python strings. -/
def pyStrLtB : List Char → List Char → Bool
  | [], [] => false
  | [], _ :: _ => true
  | _ :: _, [] => false
  | c :: cs, d :: ds => decide (c < d) || (c == d && pyStrLtB cs ds)

/-- Python string less-or-equal: strictly less or equal. -/
def pyStrLeB (a b : List Char) : Bool :=
  pyStrLtB a b || a == b

/-- Substring test: Python `needle in hay` on strings (leftmost scan). -/
def containsSub (needle : List Char) : List Char → Bool
  | [] => needle.isEmpty
  | c :: rest => needle.isPrefixOf (c :: rest) || containsSub needle rest

/-- Python `str.title()`, ASCII fragment: the first letter of every maximal
run of letters is uppercased, the others lowercased; the boolean argument
records whether the previous character was a letter. -/
def pyTitleAux : Bool → List Char → List Char
  | _, [] => []
  | prev, c :: rest =>
    if c.isAlpha then
      (if prev then c.toLower else c.toUpper) :: pyTitleAux true rest
    else
      c :: pyTitleAux false rest

/-- Python `str.title()` (ASCII fragment). -/
def pyTitleCase (l : List Char) : List Char :=
  pyTitleAux false l

/-- Python `s.split('/')` on code points: splitting keeps empty pieces and
the result is never empty. -/
def splitSlash : List Char → List (List Char)
  | [] => [[]]
  | c :: rest =>
    let r := splitSlash rest
    if c = '/' then [] :: r
    else
      match r with
      | [] => [[c]]
      | h :: t => (c :: h) :: t

/-! ### Filename sanitizer, src/script.py lines 54-59 -/

/-- Characters replaced by the regex character class in
`re.sub(r'[<>:"/\\|?*]', '_', title)` (script.py line 57). -/
def badChar (c : Char) : Bool :=
  c = '<' || c = '>' || c = ':' || c = '\"' || c = '/' || c = '\\' ||
    c = '|' || c = '?' || c = '*'

/-- Characters stripped by `strip('. ')` (script.py line 59). -/
def isDotSpace (c : Char) : Bool :=
  c = '.' || c = ' '

/-- sanitize_filename (script.py lines 54-59): replace the invalid filename
characters by an underscore, truncate to 100 code points, and apply Python
`strip('. ')`, which removes periods and spaces from BOTH ends. -/
def sanitize_filename (title : String) : String :=
  let safe := title.data.map fun c => if badChar c then '_' else c
  ⟨pyStripP isDotSpace (safe.take 100)⟩

/-- Claim C3's reading of the sanitizer: identical to `sanitize_filename`
except that only the TRAILING periods and spaces are trimmed, leading
characters being preserved.  Built from the claim's words, for comparison
with the source function. -/
def sanitizeTrailingOnly (title : String) : String :=
  let safe := title.data.map fun c => if badChar c then '_' else c
  ⟨dropRightWhile isDotSpace (safe.take 100)⟩

/-- Leading trim of periods and spaces, written by direct recursion
(spec-side rendering for the amended claim C3). -/
def trimLeading : List Char → List Char
  | [] => []
  | c :: cs => if isDotSpace c then trimLeading cs else c :: cs

/-- Trailing trim of periods and spaces, written by direct recursion
(spec-side rendering for the amended claim C3). -/
def trimTrailing : List Char → List Char
  | [] => []
  | c :: cs =>
    match trimTrailing cs with
    | [] => if isDotSpace c then [] else [c]
    | r => c :: r

/-- Amended claim C3's sanitizer: replace invalid characters, truncate to
100 characters, then trim periods and spaces from both the leading and the
trailing end. -/
def sanitizeBothEnds (title : String) : String :=
  let safe := title.data.map fun c => if badChar c then '_' else c
  ⟨trimTrailing (trimLeading (safe.take 100))⟩

/-! ### Link discoverer, src/script.py lines 36-52 -/

/-- Candidate test of script.py line 46: the href qualifies iff it contains
the substring "/analyses/" or the substring "/blog/". -/
def qualifiesB (href : String) : Bool :=
  containsSub "/analyses/".data href.data || containsSub "/blog/".data href.data

/-- Python `href.startswith('http')`. -/
def startsWithHttp (href : String) : Bool :=
  "http".data.isPrefixOf href.data

/-- URL resolution of script.py line 47: an href starting with "http" passes
through unchanged; any other href is joined to the base after stripping the
base's trailing slashes (`rstrip('/')`) and the href's leading slashes
(`lstrip('/')`). -/
def resolveHref (base href : String) : String :=
  if startsWithHttp href then href
  else ⟨dropRightWhile (· = '/') base.data ++ '/' :: href.data.dropWhile (· = '/')⟩

/-- Loop of script.py lines 43-50: walk the hrefs in document order keeping
a set of already-seen resolved URLs (set membership is equality on strings);
qualifying hrefs are resolved and appended when unseen. -/
def extractLoop (base : String) : List String → List String → List String
  | [], _ => []
  | href :: rest, seen =>
    if qualifiesB href then
      let u := resolveHref base href
      if u ∈ seen then extractLoop base rest seen
      else u :: extractLoop base rest (u :: seen)
    else extractLoop base rest seen

/-- extract_article_urls (script.py lines 36-52) over the document-order
list of href attribute values produced by the HTML-parser collaborator. -/
def extract_article_urls (hrefs : List String) (base : String) : List String :=
  extractLoop base hrefs []

/-- Specification-side first-seen deduplication: keep the first occurrence
of every string, in order of first appearance. -/
def dedupFirstSeen : List String → List String
  | [] => []
  | x :: xs => x :: dedupFirstSeen (xs.filter (· != x))
termination_by l => l.length
decreasing_by
  simp only [List.length_cons]
  exact Nat.lt_succ_of_le (List.length_filter_le _ _)

/-- Helper for relating the seen-set loop to `dedupFirstSeen`: first-seen
deduplication starting from a set of already-seen strings. -/
def dedupFrom : List String → List String → List String
  | [], _ => []
  | x :: xs, seen =>
    if x ∈ seen then dedupFrom xs seen else x :: dedupFrom xs (x :: seen)

/-! ### Content extractor, src/script.py lines 122-199 -/

/-- Abstract HTML node tree: the shape BeautifulSoup exposes of the content
container (tags with children, and text). -/
inductive Node where
  | text (s : String)
  | elem (tag : String) (children : List Node)

/-- Tags removed from the content container by script.py lines 187-188. -/
def unwantedTags : List String :=
  ["script", "style", "iframe"]

/-- Removal of every script/style/iframe subtree among a list of nodes
(`find_all` + `decompose` of script.py lines 187-188): a node whose tag is
unwanted is dropped with its whole subtree, other nodes keep their tag and
have their children cleaned recursively. -/
def stripChildren : List Node → List Node
  | [] => []
  | .text s :: ns => .text s :: stripChildren ns
  | .elem t cs :: ns =>
    if unwantedTags.contains t then stripChildren ns
    else .elem t (stripChildren cs) :: stripChildren ns

/-- Cleaning of the found content container itself: `decompose` is applied
to the container's descendants, never to the container. -/
def sanitizeContainer : Node → Node
  | .text s => .text s
  | .elem t cs => .elem t (stripChildren cs)

/-- Parsed-document interface consumed by the content extractor: each field
holds the result of one BeautifulSoup query made by script.py lines 126-179.
`none` means the query found nothing. -/
structure Doc where
  /-- First div with one of the candidate content classes (lines 127-130). -/
  contentDiv : Option Node
  /-- Text of `h1.post-title` inside `div.post-header`, when both exist
  (lines 140-144). -/
  headerTitle : Option String
  /-- Content attribute of the og:title meta tag, when the tag exists
  (lines 147-150; a tag without the attribute yields the empty string). -/
  ogTitle : Option String
  /-- Text of the document title element (lines 153-156). -/
  docTitle : Option String
  /-- Text of the first h1 element in the document (lines 162-166). -/
  h1Text : Option String
  /-- Text of the first h2 element in the document (lines 162-166). -/
  h2Text : Option String
  /-- Path component of the canonical-link href as produced by the
  `urlparse` collaborator (lines 169-179); `none` when there is no
  canonical link (the subscript error is swallowed by `except: pass`). -/
  canonicalPath : Option String

/-- Python `title.split('|')[0]`: everything before the first pipe. -/
def takeBeforePipe (l : List Char) : List Char :=
  l.takeWhile (· != '|')

/-- Last-resort title derivation of script.py lines 169-179: walk the
slash-split path parts in reverse, take the first part that is non-empty and
not all digits (Python `isdigit`), replace hyphens by spaces and title-case
it.  When no part qualifies the tier produces nothing (empty string). -/
def canonicalTitle (path : String) : String :=
  match (splitSlash path.data).reverse.find? (fun p => !p.isEmpty && !p.all Char.isDigit) with
  | some p => ⟨pyTitleCase (pyReplaceChar '-' ' ' p)⟩
  | none => ""

/-- Title cascade of script.py lines 136-179, evaluated in order with the
first truthy (non-empty) stripped result winning.  The empty string plays
the role of Python's falsy `None`/empty title. -/
def titleCascade (doc : Doc) : String :=
  let t1 := match doc.headerTitle with
    | some s => pyStripWs s
    | none => ""
  if t1 ≠ "" then t1 else
  let t2 := match doc.ogTitle with
    | some s => pyStripWs s
    | none => ""
  if t2 ≠ "" then t2 else
  let t3 := match doc.docTitle with
    | some s => pyStripWs ⟨takeBeforePipe (pyStripWs s).data⟩
    | none => ""
  if t3 ≠ "" then t3 else
  let t4 := match doc.h1Text with
    | some s => pyStripWs s
    | none =>
      match doc.h2Text with
      | some s => pyStripWs s
      | none => ""
  if t4 ≠ "" then t4 else
  match doc.canonicalPath with
  | some path => canonicalTitle path
  | none => ""

/-- Whitespace collapsing of script.py line 192, the regex substitution of
one-or-more whitespace characters by a single space. -/
def collapseWs : List Char → List Char
  | [] => []
  | [c] => if isPySpace c then [' '] else [c]
  | c :: d :: rest =>
    if isPySpace c then
      if isPySpace d then collapseWs (d :: rest)
      else ' ' :: collapseWs (d :: rest)
    else c :: collapseWs (d :: rest)

/-- Title cleanup of script.py lines 191-192: replace newlines by spaces,
strip, then collapse whitespace runs to single spaces. -/
def normalizeTitle (s : String) : String :=
  ⟨collapseWs (pyStripP isPySpace (pyReplaceChar '\n' ' ' s.data))⟩

/-- Final title value of script.py lines 136-192: the cascade result, with
the literal default substituted when the cascade produced a falsy value
(line 181-182), then cleaned up (lines 190-192).  Note the default is
substituted BEFORE the whitespace cleanup. -/
def resolvedTitle (doc : Doc) : String :=
  let t := titleCascade doc
  normalizeTitle (if t = "" then "Untitled Article" else t)

/-- extract_article_content (script.py lines 122-199): `none` models the
`(None, None)` container-not-found result of lines 132-134; otherwise the
resolved title together with the sanitized container. -/
def extract_article_content (doc : Doc) : Option (String × Node) :=
  match doc.contentDiv with
  | none => none
  | some body => some (resolvedTitle doc, sanitizeContainer body)

/-! ### Date extractor, src/script.py lines 201-231 -/

/-- Calendar date as carried by the script's `datetime` values (time
components are always zero in this program). -/
structure PyDate where
  y : Nat
  m : Nat
  d : Nat
deriving DecidableEq

/-- Gregorian leap-year rule used by Python `datetime`. -/
def isLeapB (y : Nat) : Bool :=
  y % 4 = 0 && (y % 100 ≠ 0 || y % 400 = 0)

/-- Number of days of a month, as enforced by the `datetime` constructor. -/
def daysInMonth (y m : Nat) : Nat :=
  if m = 2 then (if isLeapB y then 29 else 28)
  else if m = 4 || m = 6 || m = 9 || m = 11 then 30
  else 31

/-- Validity check of the Python `datetime(year, month, day)` constructor:
MINYEAR..MAXYEAR bounds and a real calendar day. -/
def validDateB (y m d : Nat) : Bool :=
  decide (1 ≤ y) && decide (y ≤ 9999) && decide (1 ≤ m) && decide (m ≤ 12) &&
    decide (1 ≤ d) && decide (d ≤ daysInMonth y m)

/-- Validity of a date record. -/
def validDate (dt : PyDate) : Bool :=
  validDateB dt.y dt.m dt.d

/-- Construction through the validating `datetime` constructor: `none`
models the ValueError raised on an invalid date. -/
def mkDate (y m d : Nat) : Option PyDate :=
  if validDateB y m d then some ⟨y, m, d⟩ else none

/-- Sentinel date of script.py lines 228 and 231. -/
def sentinelDate : PyDate :=
  ⟨1900, 1, 1⟩

/-- Consume one expected literal character. -/
def expectChar (c : Char) : List Char → Option (List Char)
  | x :: r => if x = c then some r else none
  | [] => none

/-- Consume exactly `k` ASCII digits and return their value (the regex
group of k digits followed by `int()`). -/
def parseExact (k : Nat) (l : List Char) : Option (Nat × List Char) :=
  let pre := l.take k
  if pre.length = k ∧ pre.all Char.isDigit then
    some (pre.foldl (fun acc c => acc * 10 + (c.toNat - 48)) 0, l.drop k)
  else none

/-- Consume one or two digits, preferring two (the greedy regex group of one
or two digits).  In every use the group is followed by a non-digit literal,
so the regex's backtracking from the two-digit alternative to the one-digit
alternative can never succeed and plain greedy choice is equivalent. -/
def parse12 (l : List Char) : Option (Nat × List Char) :=
  parseExact 2 l <|> parseExact 1 l

/-- Match of the URL date regex of script.py line 205 anchored at the start
of `l`: a slash, four digits, slash, one-or-two digits, slash, one-or-two
digits, slash. -/
def matchDateAt (l : List Char) : Option (Nat × Nat × Nat) := do
  let r ← expectChar '/' l
  let (y, r) ← parseExact 4 r
  let r ← expectChar '/' r
  let (m, r) ← parse12 r
  let r ← expectChar '/' r
  let (d, r) ← parse12 r
  let _ ← expectChar '/' r
  pure (y, m, d)

/-- Python `re.search` over the URL for the date pattern: leftmost matching
start position wins. -/
def urlDateSearch : List Char → Option (Nat × Nat × Nat)
  | [] => none
  | c :: rest => matchDateAt (c :: rest) <|> urlDateSearch rest

/-- Final step shared by the date parsers: the whole input must have been
consumed (strptime rejects unconverted data, fromisoformat rejects longer
input) and the components must form a constructible date. -/
def finishDate (y m d : Nat) : List Char → Option PyDate
  | [] => mkDate y m d
  | _ => none

/-- Python `datetime.fromisoformat` restricted to the calendar-date form it
accepts (exactly four digits, dash, two digits, dash, two digits), with the
constructor's validity check; `none` models the ValueError. -/
def parseIsoDate (l : List Char) : Option PyDate := do
  let (y, r) ← parseExact 4 l
  let r ← expectChar '-' r
  let (m, r) ← parseExact 2 r
  let r ← expectChar '-' r
  let (d, r) ← parseExact 2 r
  finishDate y m d r

/-- Full lowercase English month names, in order, as matched by the
strptime directive for a full month name (case-insensitively). -/
def monthNames : List (List Char) :=
  ["january".data, "february".data, "march".data, "april".data, "may".data,
    "june".data, "july".data, "august".data, "september".data,
    "october".data, "november".data, "december".data]

/-- Scan the month-name table: `i` is the 1-based index of the current
head of `names`; `low` is the lowercased input. -/
def matchMonthAux (i : Nat) (names : List (List Char)) (low l : List Char) :
    Option (Nat × List Char) :=
  match names with
  | [] => none
  | n :: rest =>
    if n.isPrefixOf low then some (i, l.drop n.length)
    else matchMonthAux (i + 1) rest low l

/-- Match a full month name prefix, case-insensitively, returning the month
number and the remaining input. -/
def matchMonth (l : List Char) : Option (Nat × List Char) :=
  matchMonthAux 1 monthNames (l.map Char.toLower) l

/-- Consume one-or-more whitespace characters (strptime turns whitespace in
the format string into such a match). -/
def skipWs1 : List Char → Option (List Char)
  | c :: r => if isPySpace c then some (r.dropWhile isPySpace) else none
  | [] => none

/-- strptime with format month-name, day, comma, year ('%B %d, %Y'),
whole-string match, validated by the datetime constructor. -/
def parseFmtMonthName (l : List Char) : Option PyDate := do
  let (m, r) ← matchMonth l
  let r ← skipWs1 r
  let (d, r) ← parse12 r
  let r ← expectChar ',' r
  let r ← skipWs1 r
  let (y, r) ← parseExact 4 r
  finishDate y m d r

/-- strptime with format year-month-day ('%Y-%m-%d'), whole-string match,
validated by the datetime constructor. -/
def parseFmtYmd (l : List Char) : Option PyDate := do
  let (y, r) ← parseExact 4 l
  let r ← expectChar '-' r
  let (m, r) ← parse12 r
  let r ← expectChar '-' r
  let (d, r) ← parse12 r
  finishDate y m d r

/-- strptime with format day/month/year ('%d/%m/%Y'), whole-string match,
validated by the datetime constructor. -/
def parseFmtDmy (l : List Char) : Option PyDate := do
  let (d, r) ← parse12 l
  let r ← expectChar '/' r
  let (m, r) ← parse12 r
  let r ← expectChar '/' r
  let (y, r) ← parseExact 4 r
  finishDate y m d r

/-- Format loop of script.py lines 221-225: try the three formats in order,
a parse failure (ValueError) moving on to the next format. -/
def tryDateFormats (l : List Char) : Option PyDate :=
  parseFmtMonthName l <|> parseFmtYmd l <|> parseFmtDmy l

/-- Parsed-document interface consumed by the date extractor. -/
structure DateDoc where
  /-- Meta tag with an article-published-time property (script.py line 211):
  `none` when absent, `some none` when the tag lacks a content attribute
  (in which case line 214 raises on `None` and the outer handler returns
  the sentinel), `some (some s)` for a content string. -/
  metaDate : Option (Option String)
  /-- Stripped text of the first element classed post-date/date/published
  (script.py lines 217-219). -/
  dateElem : Option String

/-- extract_article_date (script.py lines 201-231).  The whole body runs
under a single try/except returning the sentinel, so ANY exception inside a
tier — in particular a ValueError from the datetime constructor on an
invalid URL date, or from fromisoformat on a malformed meta date — produces
the sentinel directly instead of falling through to the next tier. -/
def extract_article_date (url : String) (doc : DateDoc) : PyDate :=
  match urlDateSearch url.data with
  | some (y, m, d) => if validDateB y m d then ⟨y, m, d⟩ else sentinelDate
  | none =>
    match doc.metaDate with
    | some (some s) =>
      match parseIsoDate (s.data.takeWhile (· != 'T')) with
      | some dt => dt
      | none => sentinelDate
    | some none => sentinelDate
    | none =>
      match doc.dateElem with
      | some s =>
        match tryDateFormats (pyStripP isPySpace s.data) with
        | some dt => dt
        | none => sentinelDate
      | none => sentinelDate

/-! ### Compiler ordering, src/script.py lines 283-297 -/

/-- Python ascending comparison of the script's `(datetime, url)` pairs,
first component: datetimes compare lexicographically by their fields (the
time fields are all zero here). -/
def dateLtB (a b : PyDate) : Bool :=
  decide (a.y < b.y) ||
    (a.y == b.y && (decide (a.m < b.m) || (a.m == b.m && decide (a.d < b.d))))

/-- Python ascending comparison of `(datetime, url)` tuples: lexicographic
on the pair, with Python string comparison on the URL. -/
def recordLeB (a b : PyDate × String) : Bool :=
  dateLtB a.1 b.1 || (a.1 == b.1 && pyStrLeB a.2.data b.2.data)

/-- Ordering produced by `sorted_urls.sort(reverse=True)` (script.py line
296): `a` may precede `b` exactly when `a` is greater-or-equal in the
ascending tuple order. -/
def recordGe (a b : PyDate × String) : Prop :=
  recordLeB b a = true

instance (a b : PyDate × String) : Decidable (recordGe a b) :=
  inferInstanceAs (Decidable (recordLeB b a = true))

/-- Sorting of script.py line 296.  Python's sort is stable, and a stable
sort by a total preorder has a unique result, so it is modelled by the
stable insertion sort with the reversed comparison. -/
def mainSortRecords (pairs : List (PyDate × String)) : List (PyDate × String) :=
  List.insertionSort recordGe pairs

/-- URL list after sorting, script.py line 297. -/
def mainSortedUrls (pairs : List (PyDate × String)) : List String :=
  (mainSortRecords pairs).map Prod.snd


/-! ### Helper lemmas -/

/-- Leading trim coincides with Python's left strip. -/
theorem trimLeading_eq (l : List Char) :
    trimLeading l = l.dropWhile isDotSpace := by
  induction l with
  | nil => rfl
  | cons c cs ih =>
    by_cases h : isDotSpace c <;> simp [trimLeading, List.dropWhile_cons, h, ih]

/-- Dropping trailing characters, unfolded on a final element. -/
theorem dropRightWhile_append (p : Char → Bool) (xs : List Char) (x : Char) :
    dropRightWhile p (xs ++ [x])
      = if p x then dropRightWhile p xs else xs ++ [x] := by
  unfold dropRightWhile
  by_cases h : p x <;>
    simp [List.reverse_append, List.dropWhile_cons, h]

/-- Unfolding equation of the trailing trim. -/
theorem trimTrailing_cons (c : Char) (cs : List Char) :
    trimTrailing (c :: cs)
      = match trimTrailing cs with
        | [] => if isDotSpace c then [] else [c]
        | r => c :: r := rfl

/-- Trailing trim coincides with Python's right strip. -/
theorem trimTrailing_eq (l : List Char) :
    trimTrailing l = dropRightWhile isDotSpace l := by
  induction l using List.reverseRecOn with
  | nil => rfl
  | append_singleton xs x ih =>
    rw [dropRightWhile_append]
    by_cases h : isDotSpace x
    · rw [if_pos h, ← ih]
      clear ih
      induction xs with
      | nil => simp [trimTrailing, h]
      | cons c cs ihc =>
        rw [List.cons_append, trimTrailing_cons, trimTrailing_cons, ihc]
    · rw [if_neg h]
      clear ih
      induction xs with
      | nil => simp [trimTrailing, h]
      | cons c cs ihc =>
        rw [List.cons_append, trimTrailing_cons, ihc]
        cases hcs : cs ++ [x] with
        | nil => simp at hcs
        | cons a as => rfl

/-! ### Claim theorems -/

/-- C9: there is a non-empty title (a single period) on which the filename
sanitizer returns the empty string, so the sanitized backup filename stem is
not guaranteed to be non-empty. -/
theorem C9_empty_sanitized_stem :
    sanitize_filename "." = "" ∧ ("." : String) ≠ "" := by
  decide

/-- C3 counterexample: the claim states that only trailing periods and
spaces are trimmed and that leading characters are preserved, but Python
`strip('. ')` trims both ends: on the title consisting of a space followed
by the letter a, the code returns "a" while the claimed
trailing-only-trim composition returns the unchanged two-character string. -/
theorem C3_counterexample :
    sanitize_filename " a" = "a" ∧ sanitizeTrailingOnly " a" = " a" ∧
      (" a" : String) ≠ "a" := by
  decide

/-- C3 amended: the sanitizer equals the composition replace-invalid-chars,
truncate to 100 characters, then trim periods and spaces from BOTH the
leading and the trailing end (not only the trailing one). -/
theorem C3_amended (title : String) :
    sanitize_filename title = sanitizeBothEnds title := by
  simp only [sanitize_filename, sanitizeBothEnds, pyStripP, trimLeading_eq,
    trimTrailing_eq]

/-- C10: in the link discoverer a qualifying href is passed through
unchanged exactly when it begins with the four characters "http": an href
with that prefix is emitted verbatim even when it is not a full URL (the
href "httpx/blog/a" stays verbatim in the output), while any other href —
including one carrying a non-http scheme such as "ftp://..." — is joined to
the base (base with trailing slashes stripped, then a slash, then the href
with leading slashes stripped). -/
theorem C10_http_prefix_boundary :
    (∀ base href : String, startsWithHttp href = true →
        resolveHref base href = href) ∧
    (∀ base href : String, startsWithHttp href = false →
        (resolveHref base href).data
          = dropRightWhile (· = '/') base.data
              ++ '/' :: href.data.dropWhile (· = '/')) ∧
    extract_article_urls ["httpx/blog/a"] "https://x.test" = ["httpx/blog/a"] ∧
    extract_article_urls ["ftp://y.test/blog/a"] "https://x.test"
      = ["https://x.test/ftp://y.test/blog/a"] := by
  refine ⟨fun base href h => ?_, fun base href h => ?_, by decide, by decide⟩
  · simp [resolveHref, h]
  · simp [resolveHref, h]

/-- Witness for C10 at concrete inputs: the http-prefixed non-URL href is
returned verbatim, the non-http-scheme href is joined to the base. -/
theorem C10_http_prefix_boundary_witness :
    resolveHref "https://x.test" "httpx/blog/a" = "httpx/blog/a" ∧
    (resolveHref "https://x.test" "ftp://y.test/blog/a").data
      = dropRightWhile (· = '/') "https://x.test".data
          ++ '/' :: "ftp://y.test/blog/a".data.dropWhile (· = '/') :=
  ⟨C10_http_prefix_boundary.1 "https://x.test" "httpx/blog/a" (by decide),
    C10_http_prefix_boundary.2.1 "https://x.test" "ftp://y.test/blog/a" (by decide)⟩

/-- C2 counterexample: on a source URL carrying the invalid date segment
/2021/13/45/ the URL tier raises inside the single function-level handler,
so the extractor returns the sentinel immediately even though the
structured-metadata tier holds a perfectly resolvable date (2022-05-05):
the remaining tiers are NOT tried, contradicting the claim that an invalid
URL date falls through to the next tier. -/
theorem C2_counterexample :
    urlDateSearch ("https://x.test/2021/13/45/post" : String).data
        = some (2021, 13, 45) ∧
    validDateB 2021 13 45 = false ∧
    parseIsoDate (("2022-05-05T10:20:30" : String).data.takeWhile (· != 'T'))
        = some ⟨2022, 5, 5⟩ ∧
    extract_article_date "https://x.test/2021/13/45/post"
        ⟨some (some "2022-05-05T10:20:30"), none⟩ = sentinelDate ∧
    sentinelDate ≠ ⟨2022, 5, 5⟩ := by
  refine ⟨by decide, by decide, by decide, by decide, by decide⟩

/-- C2 amended: when the /YYYY/M/D/ URL segment does not form a valid
calendar date, the ValueError escapes to the function-level handler and the
extractor returns the sentinel directly, skipping the structured-metadata
and free-text tiers (rather than treating the failure as local to the URL
tier and proceeding). -/
theorem C2_amended (url : String) (doc : DateDoc) (y m d : Nat)
    (hmatch : urlDateSearch url.data = some (y, m, d))
    (hinvalid : validDateB y m d = false) :
    extract_article_date url doc = sentinelDate := by
  unfold extract_article_date
  rw [hmatch]
  simp [hinvalid]

/-- Witness for C2 amended at the counterexample input. -/
theorem C2_amended_witness :
    extract_article_date "https://x.test/2021/13/45/post"
        ⟨some (some "2022-05-05T10:20:30"), none⟩ = sentinelDate :=
  C2_amended "https://x.test/2021/13/45/post"
    ⟨some (some "2022-05-05T10:20:30"), none⟩ 2021 13 45 (by decide) (by decide)

/-- Every date constructed by the shared final parsing step satisfies the
datetime constructor's validity check. -/
theorem finishDate_valid : ∀ {y m d : Nat} {r : List Char} {dt : PyDate},
    finishDate y m d r = some dt → validDate dt = true := by
  intro y m d r dt h
  cases r with
  | cons c cs => simp [finishDate] at h
  | nil =>
    simp only [finishDate, mkDate] at h
    by_cases hv : validDateB y m d
    · rw [if_pos hv] at h
      obtain rfl : PyDate.mk y m d = dt := Option.some.inj h
      exact hv
    · rw [if_neg hv] at h
      simp at h

/-- Dates accepted by the ISO parser are valid calendar dates. -/
theorem parseIsoDate_valid {l : List Char} {dt : PyDate}
    (h : parseIsoDate l = some dt) : validDate dt = true := by
  unfold parseIsoDate at h
  simp only [bind, Option.bind_eq_some] at h
  obtain ⟨⟨y, r1⟩, -, r2, -, ⟨m, r3⟩, -, r4, -, ⟨d, r5⟩, -, h⟩ := h
  exact finishDate_valid h

/-- Dates accepted by the month-name format are valid calendar dates. -/
theorem parseFmtMonthName_valid {l : List Char} {dt : PyDate}
    (h : parseFmtMonthName l = some dt) : validDate dt = true := by
  unfold parseFmtMonthName at h
  simp only [bind, Option.bind_eq_some] at h
  obtain ⟨⟨m, r1⟩, -, r2, -, ⟨d, r3⟩, -, r4, -, r5, -, ⟨y, r6⟩, -, h⟩ := h
  exact finishDate_valid h

/-- Dates accepted by the year-month-day format are valid calendar dates. -/
theorem parseFmtYmd_valid {l : List Char} {dt : PyDate}
    (h : parseFmtYmd l = some dt) : validDate dt = true := by
  unfold parseFmtYmd at h
  simp only [bind, Option.bind_eq_some] at h
  obtain ⟨⟨y, r1⟩, -, r2, -, ⟨m, r3⟩, -, r4, -, ⟨d, r5⟩, -, h⟩ := h
  exact finishDate_valid h

/-- Dates accepted by the day/month/year format are valid calendar dates. -/
theorem parseFmtDmy_valid {l : List Char} {dt : PyDate}
    (h : parseFmtDmy l = some dt) : validDate dt = true := by
  unfold parseFmtDmy at h
  simp only [bind, Option.bind_eq_some] at h
  obtain ⟨⟨d, r1⟩, -, r2, -, ⟨m, r3⟩, -, r4, -, ⟨y, r5⟩, -, h⟩ := h
  exact finishDate_valid h

/-- Dates accepted by the three-format loop are valid calendar dates. -/
theorem tryDateFormats_valid {l : List Char} {dt : PyDate}
    (h : tryDateFormats l = some dt) : validDate dt = true := by
  unfold tryDateFormats at h
  rcases (Option.orElse_eq_some _ _ _).mp h with h1 | ⟨-, h23⟩
  · exact parseFmtMonthName_valid h1
  rcases (Option.orElse_eq_some _ _ _).mp h23 with h2 | ⟨-, h3⟩
  · exact parseFmtYmd_valid h2
  · exact parseFmtDmy_valid h3

/-- The sentinel is a valid calendar date. -/
theorem sentinel_valid : validDate sentinelDate = true := by decide

/-- C7: for every source URL and parsed document the date extractor returns
a valid calendar date (the embedding is total, modelling that the function
never propagates an exception), and when no tier resolves anything — no URL
date segment, no metadata tag, no date element — it returns the sentinel
date January 1, 1900. -/
theorem C7_date_extractor_total (url : String) (doc : DateDoc) :
    validDate (extract_article_date url doc) = true ∧
    (urlDateSearch url.data = none → doc.metaDate = none → doc.dateElem = none →
      extract_article_date url doc = sentinelDate) := by
  constructor
  · cases hu : urlDateSearch url.data with
    | some t =>
      obtain ⟨y, m, d⟩ := t
      simp only [extract_article_date, hu]
      by_cases hv : validDateB y m d
      · simpa only [if_pos hv] using hv
      · simpa only [if_neg hv] using sentinel_valid
    | none =>
      simp only [extract_article_date, hu]
      cases hm : doc.metaDate with
      | some o =>
        cases o with
        | some s =>
          cases hp : parseIsoDate (s.data.takeWhile (· != 'T')) with
          | some dt => simpa only [hp] using parseIsoDate_valid hp
          | none => simpa only [hp] using sentinel_valid
        | none => exact sentinel_valid
      | none =>
        cases he : doc.dateElem with
        | some s =>
          cases ht : tryDateFormats (pyStripP isPySpace s.data) with
          | some dt => simpa only [ht] using tryDateFormats_valid ht
          | none => simpa only [ht] using sentinel_valid
        | none => exact sentinel_valid
  · intro h1 h2 h3
    simp only [extract_article_date, h1, h2, h3]

/-- Witness for C7 at a concrete input resolving nothing: the result is the
sentinel, a valid date. -/
theorem C7_date_extractor_total_witness :
    validDate (extract_article_date "https://x.test/untitled-post" ⟨none, none⟩)
        = true ∧
    extract_article_date "https://x.test/untitled-post" ⟨none, none⟩
        = sentinelDate :=
  ⟨(C7_date_extractor_total "https://x.test/untitled-post" ⟨none, none⟩).1,
    (C7_date_extractor_total "https://x.test/untitled-post" ⟨none, none⟩).2
      (by decide) rfl rfl⟩

/-- C5: the title cascade is evaluated in strict order with the first
non-empty result winning: whenever the document carries a header-block
title whose stripped text is non-empty, the extracted title is that
header-block title (stripped and whitespace-normalized), regardless of a
present non-empty og:title value. -/
theorem C5_header_title_wins (doc : Doc) (ht og : String)
    (h1 : doc.headerTitle = some ht) (h2 : pyStripWs ht ≠ "")
    (h3 : doc.ogTitle = some og) (h4 : pyStripWs og ≠ "") :
    resolvedTitle doc = normalizeTitle (pyStripWs ht) := by
  have hcas : titleCascade doc = pyStripWs ht := by
    simp only [titleCascade, h1]
    rw [if_pos h2]
  simp only [resolvedTitle, hcas]
  rw [if_neg h2]

/-- Witness for C5: a document carrying both a header-block title and a
differing og:title resolves to the header-block title. -/
theorem C5_header_title_wins_witness :
    resolvedTitle
        ⟨some (.elem "div" []), some "Header  Title", some "Og Title",
          none, none, none, none⟩
      = normalizeTitle (pyStripWs "Header  Title") :=
  C5_header_title_wins _ "Header  Title" "Og Title" rfl (by decide) rfl (by decide)

/-- C6 fails on the code: a document whose only title source is a canonical
link whose path is slash-hyphen-slash makes the canonical tier produce the
all-hyphen segment "-", which becomes the single space " " — a truthy string,
so the "Untitled Article" default of line 181 is skipped — and the final
whitespace cleanup of lines 191-192 then reduces it to the empty string:
the extractor returns an empty title together with the found container,
contradicting the invariant that the title is never empty. -/
theorem C6_empty_title_bug :
    extract_article_content
        ⟨some (.elem "div" []), none, none, none, none, none, some "/-/"⟩
      = some ("", .elem "div" []) := by
  have ht : resolvedTitle
      ⟨some (.elem "div" []), none, none, none, none, none, some "/-/"⟩ = "" := by
    decide
  simp only [extract_article_content, sanitizeContainer, ht]
  simp [stripChildren]

/-- Dropping from the left twice is the same as once. -/
theorem dropWhile_idem (p : Char → Bool) (l : List Char) :
    (l.dropWhile p).dropWhile p = l.dropWhile p := by
  induction l with
  | nil => rfl
  | cons c cs ih => by_cases h : p c <;> simp [List.dropWhile_cons, h, ih]

/-- Dropping from the right twice is the same as once. -/
theorem dropRightWhile_idem (p : Char → Bool) (l : List Char) :
    dropRightWhile p (dropRightWhile p l) = dropRightWhile p l := by
  unfold dropRightWhile
  rw [List.reverse_reverse, dropWhile_idem]

/-- The right strip returns a prefix of its input. -/
theorem dropRightWhile_initial (p : Char → Bool) (l : List Char) :
    dropRightWhile p l <+: l := by
  have h2 := List.reverse_prefix.mpr (List.dropWhile_suffix (l := l.reverse) p)
  rwa [List.reverse_reverse] at h2

/-- The right strip returns a sublist of its input. -/
theorem dropRightWhile_sublist (p : Char → Bool) (l : List Char) :
    (dropRightWhile p l).Sublist l := (dropRightWhile_initial p l).sublist

/-- A prefix of a list with nothing to drop on the left has itself nothing
to drop on the left. -/
theorem dropWhile_of_initial (p : Char → Bool) {l m : List Char}
    (hl : l.dropWhile p = l) (hm : m <+: l) : m.dropWhile p = m := by
  cases m with
  | nil => rfl
  | cons c cs =>
    cases l with
    | nil => simp at hm
    | cons d ds =>
      have hcd : c = d := by
        obtain ⟨t, ht⟩ := hm
        rw [List.cons_append] at ht
        exact (List.cons.injEq _ _ _ _ ▸ ht).1
      have hpd : p d = false := by
        by_contra hp
        rw [List.dropWhile_cons, if_pos (by simpa using hp)] at hl
        have hlen := congrArg List.length hl
        have hle := (List.dropWhile_sublist (l := ds) p).length_le
        simp at hlen
        omega
      subst hcd
      simp [List.dropWhile_cons, hpd]

/-- Python strip is idempotent. -/
theorem pyStripP_idem (p : Char → Bool) (l : List Char) :
    pyStripP p (pyStripP p l) = pyStripP p l := by
  unfold pyStripP
  set a := l.dropWhile p with ha
  have hdrop_a : a.dropWhile p = a := dropWhile_idem p l
  have hb_pre : dropRightWhile p a <+: a := dropRightWhile_initial p a
  rw [dropWhile_of_initial p hdrop_a hb_pre, dropRightWhile_idem]

/-- C8: the filename sanitizer is idempotent — applying it to its own
output changes nothing: the output contains no invalid character (each was
already replaced), is at most 100 characters long, and carries no leading
or trailing period or space. -/
theorem C8_sanitize_idempotent (t : String) :
    sanitize_filename (sanitize_filename t) = sanitize_filename t := by
  have key : ∀ l : List Char,
      pyStripP isDotSpace
          (((pyStripP isDotSpace
              ((l.map fun c => if badChar c then '_' else c).take 100)).map
            fun c => if badChar c then '_' else c).take 100)
        = pyStripP isDotSpace
            ((l.map fun c => if badChar c then '_' else c).take 100) := by
    intro l
    set f : Char → Char := fun c => if badChar c then '_' else c with hf
    set out := pyStripP isDotSpace ((l.map f).take 100) with hout
    have hsub : out.Sublist (l.map f) := by
      rw [hout]
      unfold pyStripP
      exact ((dropRightWhile_sublist _ _).trans
        (List.dropWhile_sublist _)).trans (List.take_sublist _ _)
    have hmap : out.map f = out := by
      have hc : ∀ c ∈ out, f c = c := by
        intro c hc
        have hcm : c ∈ l.map f := hsub.subset hc
        obtain ⟨a, -, rfl⟩ := List.mem_map.mp hcm
        by_cases hb : badChar a
        · simp [hf, hb]
        · simp [hf, hb]
      calc out.map f = out.map id := List.map_congr_left hc
        _ = out := List.map_id out
    have hlen : out.length ≤ 100 := by
      have h1 : out.length ≤ ((l.map f).take 100).length := by
        rw [hout]
        unfold pyStripP
        exact ((dropRightWhile_sublist _ _).trans
          (List.dropWhile_sublist _)).length_le
      have h2 : ((l.map f).take 100).length ≤ 100 := by
        simp [List.length_take]
      omega
    rw [hmap, List.take_of_length_le hlen, hout]
    exact pyStripP_idem _ _
  unfold sanitize_filename
  exact congrArg String.mk (key t.data)

/-- The discoverer loop is first-seen deduplication (relative to the seen
set) of the resolved qualifying hrefs. -/
theorem extractLoop_eq (base : String) (hrefs : List String) :
    ∀ seen : List String,
      extractLoop base hrefs seen
        = dedupFrom ((hrefs.filter qualifiesB).map (resolveHref base)) seen := by
  induction hrefs with
  | nil => intro seen; rfl
  | cons h rest ih =>
    intro seen
    by_cases hq : qualifiesB h
    · simp only [extractLoop, hq, if_true, List.filter_cons, List.map_cons]
      simp only [dedupFrom]
      by_cases hm : resolveHref base h ∈ seen
      · simp only [if_pos hm, ih]
      · simp only [if_neg hm, ih]
    · simp [extractLoop, hq, ih]

/-- Deduplication against a seen set is plain first-seen deduplication of
the input with the seen elements filtered away. -/
theorem dedupFrom_eq (l : List String) :
    ∀ seen : List String,
      dedupFrom l seen = dedupFirstSeen (l.filter fun x => decide (x ∉ seen)) := by
  induction l with
  | nil => intro seen; simp [dedupFrom, dedupFirstSeen]
  | cons x xs ih =>
    intro seen
    by_cases hm : x ∈ seen
    · simp [dedupFrom, hm, ih]
    · simp only [dedupFrom, if_neg hm, ih]
      have hfc : List.filter (fun y => decide (y ∉ seen)) (x :: xs)
          = x :: List.filter (fun y => decide (y ∉ seen)) xs := by
        simp [List.filter_cons, hm]
      rw [hfc]
      simp only [dedupFirstSeen]
      congr 1
      rw [List.filter_filter]
      congr 1
      apply List.filter_congr
      intro a _
      by_cases hax : a = x
      · subst hax
        simp [List.mem_cons]
      · by_cases has : a ∈ seen
        · simp [List.mem_cons, hax, has]
        · simp [List.mem_cons, hax, has]

/-- C4: the link discoverer returns exactly the qualifying hrefs (those
containing "/analyses/" or "/blog/") resolved to absolute URLs, with
first-seen deduplication preserving discovery order; in particular the
claim's concrete example holds. -/
theorem C4_discoverer_filter_map_dedup :
    (∀ (hrefs : List String) (base : String),
        extract_article_urls hrefs base
          = dedupFirstSeen ((hrefs.filter qualifiesB).map (resolveHref base))) ∧
    extract_article_urls ["/blog/a", "/blog/a", "/analyses/b"] "https://x.test"
      = ["https://x.test/blog/a", "https://x.test/analyses/b"] := by
  constructor
  · intro hrefs base
    rw [extract_article_urls, extractLoop_eq, dedupFrom_eq]
    congr 1
    apply List.filter_eq_self.mpr
    intro a _
    simp
  · decide

/-- Datetime comparison on explicit records, as a proposition. -/
theorem dateLtB_mk_iff (y1 m1 d1 y2 m2 d2 : Nat) :
    dateLtB ⟨y1, m1, d1⟩ ⟨y2, m2, d2⟩ = true ↔
      y1 < y2 ∨ (y1 = y2 ∧ (m1 < m2 ∨ (m1 = m2 ∧ d1 < d2))) := by
  simp [dateLtB]

/-- Datetime comparison is transitive. -/
theorem dateLtB_trans {a b c : PyDate} (h1 : dateLtB a b = true)
    (h2 : dateLtB b c = true) : dateLtB a c = true := by
  obtain ⟨y1, m1, d1⟩ := a
  obtain ⟨y2, m2, d2⟩ := b
  obtain ⟨y3, m3, d3⟩ := c
  rw [dateLtB_mk_iff] at h1 h2 ⊢
  omega

/-- Two datetimes neither of which is below the other are equal. -/
theorem dateLtB_connex {a b : PyDate} (h1 : dateLtB a b = false)
    (h2 : dateLtB b a = false) : a = b := by
  obtain ⟨y1, m1, d1⟩ := a
  obtain ⟨y2, m2, d2⟩ := b
  have h1' : ¬(y1 < y2 ∨ (y1 = y2 ∧ (m1 < m2 ∨ (m1 = m2 ∧ d1 < d2)))) := by
    rw [← dateLtB_mk_iff]
    simp [h1]
  have h2' : ¬(y2 < y1 ∨ (y2 = y1 ∧ (m2 < m1 ∨ (m2 = m1 ∧ d2 < d1)))) := by
    rw [← dateLtB_mk_iff]
    simp [h2]
  simp only [PyDate.mk.injEq]
  omega

/-- Python string comparison is transitive. -/
theorem pyStrLtB_trans (a : List Char) : ∀ b c : List Char,
    pyStrLtB a b = true → pyStrLtB b c = true → pyStrLtB a c = true := by
  induction a with
  | nil =>
    intro b c h1 h2
    cases b with
    | nil => simp [pyStrLtB] at h1
    | cons y ys =>
      cases c with
      | nil => simp [pyStrLtB] at h2
      | cons z zs => simp [pyStrLtB]
  | cons x xs ih =>
    intro b c h1 h2
    cases b with
    | nil => simp [pyStrLtB] at h1
    | cons y ys =>
      cases c with
      | nil => simp [pyStrLtB] at h2
      | cons z zs =>
        simp only [pyStrLtB, Bool.or_eq_true, decide_eq_true_eq,
          Bool.and_eq_true, beq_iff_eq] at h1 h2 ⊢
        rcases h1 with h1 | ⟨rfl, h1⟩
        · rcases h2 with h2 | ⟨rfl, h2⟩
          · exact Or.inl (lt_trans h1 h2)
          · exact Or.inl h1
        · rcases h2 with h2 | ⟨rfl, h2⟩
          · exact Or.inl h2
          · exact Or.inr ⟨rfl, ih _ _ h1 h2⟩

/-- Two strings neither of which is below the other are equal. -/
theorem pyStrLtB_connex (a : List Char) : ∀ b : List Char,
    pyStrLtB a b = false → pyStrLtB b a = false → a = b := by
  induction a with
  | nil =>
    intro b h1 h2
    cases b with
    | nil => rfl
    | cons y ys => simp [pyStrLtB] at h1
  | cons x xs ih =>
    intro b h1 h2
    cases b with
    | nil => simp [pyStrLtB] at h2
    | cons y ys =>
      simp only [pyStrLtB, Bool.or_eq_false_iff, Bool.and_eq_false_iff,
        decide_eq_false_iff_not] at h1 h2
      obtain ⟨hxy, hand1⟩ := h1
      obtain ⟨hyx, hand2⟩ := h2
      have hx : x = y := le_antisymm (le_of_not_lt hyx) (le_of_not_lt hxy)
      subst hx
      have hlt1 : pyStrLtB xs ys = false := by
        rcases hand1 with hc | hc
        · simp at hc
        · exact hc
      have hlt2 : pyStrLtB ys xs = false := by
        rcases hand2 with hc | hc
        · simp at hc
        · exact hc
      rw [ih ys hlt1 hlt2]

/-- The reverse tuple comparison of the compiler is total. -/
theorem recordLeB_total (a b : PyDate × String) :
    recordLeB a b = true ∨ recordLeB b a = true := by
  unfold recordLeB pyStrLeB
  by_cases hd : dateLtB a.1 b.1 = true
  · left
    simp [hd]
  · by_cases hd' : dateLtB b.1 a.1 = true
    · right
      simp [hd']
    · have hd0 : dateLtB a.1 b.1 = false := by simpa using hd
      have hd0' : dateLtB b.1 a.1 = false := by simpa using hd'
      have heq : a.1 = b.1 := dateLtB_connex hd0 hd0'
      by_cases hs : pyStrLtB a.2.data b.2.data = true
      · left
        simp [heq, hs]
      · by_cases hs' : pyStrLtB b.2.data a.2.data = true
        · right
          simp [heq, hs']
        · have hseq : a.2.data = b.2.data :=
            pyStrLtB_connex _ _ (by simpa using hs) (by simpa using hs')
          left
          simp [heq, hseq]

/-- The reverse tuple comparison of the compiler is transitive. -/
theorem recordLeB_trans (a b c : PyDate × String)
    (h1 : recordLeB a b = true) (h2 : recordLeB b c = true) :
    recordLeB a c = true := by
  unfold recordLeB pyStrLeB at h1 h2 ⊢
  simp only [Bool.or_eq_true, Bool.and_eq_true, beq_iff_eq] at h1 h2 ⊢
  rcases h1 with h1 | ⟨he1, hs1⟩
  · rcases h2 with h2 | ⟨he2, hs2⟩
    · exact Or.inl (dateLtB_trans h1 h2)
    · exact Or.inl (by rw [← he2]; exact h1)
  · rcases h2 with h2 | ⟨he2, hs2⟩
    · exact Or.inl (by rw [he1]; exact h2)
    · refine Or.inr ⟨he1.trans he2, ?_⟩
      rcases hs1 with hs1 | hs1
      · rcases hs2 with hs2 | hs2
        · exact Or.inl (pyStrLtB_trans _ _ _ hs1 hs2)
        · exact Or.inl (by rw [← hs2]; exact hs1)
      · rcases hs2 with hs2 | hs2
        · exact Or.inl (by rw [hs1]; exact hs2)
        · exact Or.inr (hs1.trans hs2)

/-- C1 counterexample: two sentinel-dated records discovered in the order
blog/a then blog/b come out of the compiler's sort in the order blog/b then
blog/a — records with equal dates do NOT keep their first-seen relative
order, because the reversed tuple sort breaks date ties by URL descending,
not by discovery order ascending. -/
theorem C1_counterexample :
    mainSortedUrls
        [(sentinelDate, "https://x.test/blog/a"),
          (sentinelDate, "https://x.test/blog/b")]
      = ["https://x.test/blog/b", "https://x.test/blog/a"] ∧
    mainSortedUrls
        [(sentinelDate, "https://x.test/blog/a"),
          (sentinelDate, "https://x.test/blog/b")]
      ≠ ["https://x.test/blog/a", "https://x.test/blog/b"] := by
  constructor <;> decide

/-- C1 amended: the compiler orders records by publication date descending,
breaking every equal-date tie by source URL DESCENDING (the reversed
lexicographic tuple order of Python's sort with reverse=True), not by
discovery order; the output is exactly a permutation of the input sorted by
that relation. -/
theorem C1_amended_sort (pairs : List (PyDate × String)) :
    (mainSortRecords pairs).Perm pairs ∧
    List.Sorted recordGe (mainSortRecords pairs) :=
  ⟨List.perm_insertionSort recordGe pairs,
    @List.sorted_insertionSort _ recordGe _
      ⟨fun a b => recordLeB_total b a⟩
      ⟨fun _ _ _ h1 h2 => recordLeB_trans _ _ _ h2 h1⟩ pairs⟩
